import Mathlib

/-!
Verification development for the Guardian session-enforcement daemon.

This file shallowly embeds the policy-engine and session-termination code
(`SessionTerminationService`, `ConcurrentStreamService`, `UserPortalService`,
`isPlexampSession`) and proves properties about the embedding.

Conventions of the embedding:
* Optional / possibly-`undefined` JavaScript values become `Option`.
* JavaScript truthiness on strings (`""` and `undefined` are falsy) is made
  explicit through `strTruthy` / `optTruthy`.
* Every external collaborator the service calls (TypeORM repositories,
  `ConfigService.getSetting`, `DeviceTrackingService.isTemporaryAccessValid`,
  `TimePolicyService`, `UsersService.getEffectiveDefaultBlock`, the inner
  `IPValidationService`, and `PlexClient.terminateSession`) is a field of an
  explicit `Env` record.  Each such field returns `Except String _`: an
  `Except.error` models the promise rejecting (a thrown exception), which the
  source catches at documented places.
* `Date` values become `Int` millisecond timestamps; `Date.now()` is `Env.now`.
* JavaScript `Array.prototype.sort` with the comparator
  `(a, b) => b.startTime - a.startTime` is required by the ECMAScript
  specification to be a stable sort; for a consistent comparator the stable
  sorted permutation of a list is unique, so it is embedded as Mathlib's
  stable `List.insertionSort` under the newest-first relation.
-/

namespace Guardian

instance {ε α : Type} [DecidableEq ε] [DecidableEq α] : DecidableEq (Except ε α) :=
  fun a b => by
    cases a <;> cases b
    case error.error x y =>
      exact decidable_of_iff (x = y) ⟨by rintro rfl; rfl, by intro h; injection h⟩
    case error.ok x y => exact isFalse (by intro h; cases h)
    case ok.error x y => exact isFalse (by intro h; cases h)
    case ok.ok x y =>
      exact decidable_of_iff (x = y) ⟨by rintro rfl; rfl, by intro h; injection h⟩

/-- JavaScript truthiness of a string: the empty string is falsy. -/
def strTruthy (s : String) : Bool := s ≠ ""

/-- JavaScript truthiness of an optional string (`undefined`/`null` falsy,
`""` falsy). -/
def optTruthy (o : Option String) : Bool :=
  match o with
  | none => false
  | some s => strTruthy s

/-- JavaScript `a || b` on two optional strings: yields `a` when truthy,
otherwise `b`. -/
def jsOrStr (a b : Option String) : Option String :=
  if optTruthy a then a else b

/-- Runtime value of a stored setting as returned by `ConfigService.getSetting`
(settings are dynamically typed in the source). -/
inductive JsVal where
  | vNull : JsVal
  | vStr (s : String) : JsVal
  | vNum (n : Int) : JsVal
  | vBool (b : Bool) : JsVal
deriving DecidableEq

/-- JavaScript truthiness of a setting value. -/
def JsVal.truthy : JsVal → Bool
  | .vNull => false
  | .vStr s => strTruthy s
  | .vNum n => n ≠ 0
  | .vBool b => b

/-- The source pattern `(value as string) || defaultText`: the stored value
when truthy (numbers/booleans rendered as JavaScript would when they later
reach a string position), otherwise the default text. -/
def JsVal.asStringOr : JsVal → String → String
  | .vNull, d => d
  | .vStr s, d => if strTruthy s then s else d
  | .vNum n, d => if n ≠ 0 then toString n else d
  | .vBool b, d => if b then "true" else d

/-- JavaScript `typeof v === 'number' ? v : 0` used by `getEffectiveLimit` on
the global `CONCURRENT_STREAM_LIMIT` setting. -/
def JsVal.numOrZero : JsVal → Int
  | .vNum n => n
  | _ => 0

/-- Template-literal interpolation of a possibly-`undefined` string
(productions like `` `${x}` `` render `undefined` as the text "undefined"). -/
def jsInterp (o : Option String) : String :=
  match o with
  | some s => s
  | none => "undefined"

/-- `User` sub-object of a Plex session (`plex.types.ts`). -/
structure PlexUserRef where
  id : Option String := none
  uuid : Option String := none
  title : Option String := none
deriving DecidableEq

/-- `Player` sub-object of a Plex session (`plex.types.ts`). -/
structure PlexPlayerRef where
  machineIdentifier : Option String := none
  product : Option String := none
  title : Option String := none
  address : Option String := none
deriving DecidableEq

/-- `Session` sub-object of a Plex session (`plex.types.ts`). -/
structure PlexSessionRef where
  id : Option String := none
deriving DecidableEq

/-- One session entry of `MediaContainer.Metadata` (`plex.types.ts`),
restricted to the fields the termination service reads. -/
structure PlexSession where
  sessionKey : Option String := none
  user : Option PlexUserRef := none
  player : Option PlexPlayerRef := none
  session : Option PlexSessionRef := none
deriving DecidableEq

/-- `PlexSessionsResponse` (`plex.types.ts`). -/
structure PlexSessionsResponse where
  metadata : Option (List PlexSession) := none
deriving DecidableEq

/-- `isPlexampSession` from `plex.types.ts` applied to a session object:
`sessionOrProduct.Player?.product === 'Plexamp'` (a session object is always
truthy, so the `!sessionOrProduct` guard never fires for it). -/
def isPlexampSession (s : PlexSession) : Bool :=
  match s.player with
  | none => false
  | some p => p.product = some ("Plexamp")

/-- The expression `session.User?.id || session.User?.uuid` filtered through
the `!userId` truthiness guards of the source: `some` exactly when truthy. -/
def userIdOf (s : PlexSession) : Option String :=
  let v := jsOrStr (s.user.bind PlexUserRef.id) (s.user.bind PlexUserRef.uuid)
  if optTruthy v then v else none

/-- The expression `session.Player?.machineIdentifier` filtered through the
truthiness guards of the source. -/
def deviceIdOf (s : PlexSession) : Option String :=
  let v := s.player.bind PlexPlayerRef.machineIdentifier
  if optTruthy v then v else none

/-- The expression `session.Session?.id` filtered through the truthiness
guards of the source (`if (sessionId)`). -/
def sidOf (s : PlexSession) : Option String :=
  let v := s.session.bind PlexSessionRef.id
  if optTruthy v then v else none

/-- `UserDevice` entity row, restricted to the fields the termination and
concurrent-stream code reads. -/
structure UserDevice where
  status : String := "pending"
  excludeFromConcurrentLimit : Bool := false
  temporaryAccessBypassPolicies : Bool := false
deriving DecidableEq

/-- `UserPreference` entity row, restricted to the fields read here. -/
structure UserPreference where
  networkPolicy : Option String := none
  ipAccessPolicy : Option String := none
  allowedIPs : Option (List String) := none
  concurrentStreamLimit : Option Int := none
deriving DecidableEq

/-- `SessionHistory` entity row, restricted to `startedAt` (a millisecond
timestamp; `none` models a null column). -/
structure SessionHistory where
  startedAt : Option Int := none
deriving DecidableEq

/-- Argument record passed to the inner `IPValidationService.validateIPAccess`. -/
structure IPPolicyInput where
  networkPolicy : String
  ipAccessPolicy : String
  allowedIPs : List String
deriving DecidableEq

/-- Message record passed to the inner `IPValidationService.validateIPAccess`. -/
structure IPMessages where
  lanOnly : String
  wanOnly : String
  notAllowed : String
deriving DecidableEq

/-- Result shape of IP validation
(`{ allowed: boolean; reason?: string; stopCode?: string }`). -/
structure IPResult where
  allowed : Bool
  reason : Option String := none
  stopCode : Option String := none
deriving DecidableEq

/-- Result shape of `shouldStopSession`
(`{ shouldStop: boolean; reason?: string; stopCode?: string }`). -/
structure StopDecision where
  shouldStop : Bool
  reason : Option String := none
  stopCode : Option String := none
deriving DecidableEq

/-- The `allow` decision `{ shouldStop: false }`. -/
def allowDecision : StopDecision := { shouldStop := false }

/-- Point-in-time view of every external collaborator the termination service
calls during one tick.  Each field is a pure function, which captures that the
database and settings are fixed for the duration of the evaluation; an
`Except.error` result models a rejected promise. -/
structure Env where
  /-- `Date.now()` during the tick. -/
  now : Int
  /-- `userDeviceRepository.findOne({ where: { userId, deviceIdentifier } })`. -/
  findDevice : String → String → Except String (Option UserDevice)
  /-- `userPreferenceRepository.findOne({ where: { userId } })`. -/
  findPreference : String → Except String (Option UserPreference)
  /-- `sessionHistoryRepository.findOne({ where: { sessionKey }, order: { startedAt: 'DESC' } })`. -/
  findHistory : String → Except String (Option SessionHistory)
  /-- `configService.getSetting(key)`. -/
  getSetting : String → Except String JsVal
  /-- `deviceTrackingService.isTemporaryAccessValid(device)`. -/
  isTempAccessValid : UserDevice → Except String Bool
  /-- `timePolicyService.isTimeScheduleAllowed(userId, deviceIdentifier)`. -/
  isTimeScheduleAllowed : String → String → Except String Bool
  /-- `timePolicyService.getPolicySummary(userId, deviceIdentifier)`. -/
  getPolicySummary : String → String → Except String String
  /-- `usersService.getEffectiveDefaultBlock(userId)`. -/
  getEffectiveDefaultBlock : String → Except String Bool
  /-- `ipValidationService.validateIPAccess(clientIP, policy, messages)`. -/
  ipValidate : String → IPPolicyInput → IPMessages → Except String IPResult
  /-- `plexClient.terminateSession(sessionKey, reason)`. -/
  terminate : String → String → Except String Unit

/-- `ConcurrentStreamService.getEffectiveLimit`: the user's
`concurrentStreamLimit` preference when neither null nor undefined, otherwise
the global `CONCURRENT_STREAM_LIMIT` setting when it is a number, otherwise 0. -/
def getEffectiveLimit (env : Env) (userId : String) : Except String Int :=
  match env.findPreference userId with
  | .error e => .error e
  | .ok pref =>
    match pref.bind UserPreference.concurrentStreamLimit with
    | some n => .ok n
    | none =>
      match env.getSetting ("CONCURRENT_STREAM_LIMIT") with
      | .error e => .error e
      | .ok v => .ok v.numOrZero

/-- Default reason text for the concurrent-limit termination. -/
def concurrentLimitDefault : String :=
  "You have reached your concurrent stream limit. Please stop another stream before starting a new one."

/-- Default reason text for the pending-device block inside `shouldStopSession`. -/
def pendingDefault : String :=
  "Device pending approval. The server owner must approve this device before it can be used."

/-- Default reason text for the rejected-device block. -/
def rejectedDefault : String :=
  "You are not authorized to use this device. Please contact the server administrator for more information."

/-- Default reason text used by `terminateSession` when called without a reason. -/
def terminateDefaultMsg : String :=
  "This device must be approved by the server owner. Please contact the server administrator for more information."

/-- Reason text for a session with no client IP address. -/
def ipMissingMsg : String := "Invalid or missing client IP address from Plex"

/-- Default reason text for the time-restriction block, interpolating the
policy summary. -/
def timeRestrictedDefault (summary : String) : String :=
  "Streaming is not allowed at this time due to time restrictions (Policy: " ++ summary ++ ")"

/-- JavaScript `stringOption || defaultString` yielding a plain string. -/
def strOrDefault (o : Option String) (d : String) : String :=
  match o with
  | none => d
  | some s => if strTruthy s then s else d

/-- Body of `SessionTerminationService.validateIPAccess` (the part inside its
`try`); an `Except.error` is a rejected promise reaching its `catch`. -/
def validateIPAccessInner (env : Env) (s : PlexSession) : Except String IPResult :=
  let userId := jsOrStr (s.user.bind PlexUserRef.id) (s.user.bind PlexUserRef.uuid)
  let clientIP := s.player.bind PlexPlayerRef.address
  if ¬ optTruthy userId then .ok { allowed := true }
  else if ¬ optTruthy clientIP then
    .ok { allowed := false, reason := some ipMissingMsg }
  else
    match env.findPreference (userId.getD "") with
    | .error e => .error e
    | .ok none => .ok { allowed := true }
    | .ok (some pref) =>
      match env.getSetting ("MSG_IP_LAN_ONLY") with
      | .error e => .error e
      | .ok msgLanOnly =>
        match env.getSetting ("MSG_IP_WAN_ONLY") with
        | .error e => .error e
        | .ok msgWanOnly =>
          match env.getSetting ("MSG_IP_NOT_ALLOWED") with
          | .error e => .error e
          | .ok msgNotAllowed =>
            env.ipValidate (clientIP.getD "")
              { networkPolicy := strOrDefault pref.networkPolicy ("both")
                ipAccessPolicy := strOrDefault pref.ipAccessPolicy ("all")
                allowedIPs := pref.allowedIPs.getD [] }
              { lanOnly := msgLanOnly.asStringOr ("Only LAN access is allowed")
                wanOnly := msgWanOnly.asStringOr ("Only WAN access is allowed")
                notAllowed := msgNotAllowed.asStringOr
                  ("Your current IP address is not in the allowed list") }

/-- `SessionTerminationService.validateIPAccess`: its `catch` turns any error
into `{ allowed: true }`. -/
def validateIPAccess (env : Env) (s : PlexSession) : IPResult :=
  match validateIPAccessInner env s with
  | .ok r => r
  | .error _ => { allowed := true }

/-- Device-approval part of `shouldStopSession` (from `if (!device || device.status === 'pending')`
to the final `return { shouldStop: false }`). -/
def deviceApprovalStage (env : Env) (userId : String) (dev : Option UserDevice) :
    Except String StopDecision :=
  match dev with
  | none =>
    match env.getEffectiveDefaultBlock userId with
    | .error e => .error e
    | .ok true =>
      match env.getSetting ("MSG_DEVICE_PENDING") with
      | .error e => .error e
      | .ok msg =>
        .ok { shouldStop := true, reason := some (msg.asStringOr pendingDefault),
              stopCode := some ("DEVICE_PENDING") }
    | .ok false => .ok allowDecision
  | some d =>
    if d.status = "pending" then
      match env.isTempAccessValid d with
      | .error e => .error e
      | .ok true => .ok allowDecision
      | .ok false =>
        match env.getEffectiveDefaultBlock userId with
        | .error e => .error e
        | .ok true =>
          match env.getSetting ("MSG_DEVICE_PENDING") with
          | .error e => .error e
          | .ok msg =>
            .ok { shouldStop := true, reason := some (msg.asStringOr pendingDefault),
                  stopCode := some ("DEVICE_PENDING") }
        | .ok false => .ok allowDecision
    else if d.status = "rejected" then
      match env.isTempAccessValid d with
      | .error e => .error e
      | .ok true => .ok allowDecision
      | .ok false =>
        match env.getSetting ("MSG_DEVICE_REJECTED") with
        | .error e => .error e
        | .ok msg =>
          .ok { shouldStop := true, reason := some (msg.asStringOr rejectedDefault),
                stopCode := some ("DEVICE_REJECTED") }
    else .ok allowDecision

/-- IP-policy, time-policy and device-approval part of `shouldStopSession`
(everything after the temporary-access bypass check). -/
def ipTimeDeviceStage (env : Env) (s : PlexSession) (userId deviceIdentifier : String)
    (dev : Option UserDevice) : Except String StopDecision :=
  let ipv := validateIPAccess env s
  if ¬ ipv.allowed then
    .ok { shouldStop := true, reason := some (jsInterp ipv.reason), stopCode := ipv.stopCode }
  else
    match env.isTimeScheduleAllowed userId deviceIdentifier with
    | .error e => .error e
    | .ok true => deviceApprovalStage env userId dev
    | .ok false =>
      match env.getPolicySummary userId deviceIdentifier with
      | .error e => .error e
      | .ok summary =>
        match env.getSetting ("MSG_TIME_RESTRICTED") with
        | .error e => .error e
        | .ok msg =>
          .ok { shouldStop := true, reason := some (msg.asStringOr (timeRestrictedDefault summary)),
                stopCode := some ("TIME_RESTRICTED") }

/-- Body of `SessionTerminationService.shouldStopSession` (the part inside its
`try`; the unused `skipConcurrentCheck` flag of the source is omitted since the
body never reads it). -/
def shouldStopSessionInner (env : Env) (s : PlexSession) : Except String StopDecision :=
  match userIdOf s, deviceIdOf s with
  | some userId, some deviceIdentifier =>
    if isPlexampSession s then .ok allowDecision
    else
      match env.findDevice userId deviceIdentifier with
      | .error e => .error e
      | .ok (some d) =>
        match env.isTempAccessValid d with
        | .error e => .error e
        | .ok tv =>
          if tv && d.temporaryAccessBypassPolicies then .ok allowDecision
          else ipTimeDeviceStage env s userId deviceIdentifier (some d)
      | .ok none => ipTimeDeviceStage env s userId deviceIdentifier none
  | _, _ => .ok allowDecision

/-- `SessionTerminationService.shouldStopSession`: its `catch` turns any error
into `{ shouldStop: false }` (fail-open). -/
def shouldStopSession (env : Env) (s : PlexSession) : StopDecision :=
  match shouldStopSessionInner env s with
  | .ok r => r
  | .error _ => allowDecision

/-- Accumulated observable outcome of a termination pass: the `trace` lists
every `terminateSession` invocation in order as `(sessionId, reason)` (whether
or not the upstream call succeeded), `stopped` is the source's
`stoppedSessions` array (successful terminations only), `errors` its `errors`
array. -/
structure TickResult where
  trace : List (String × String)
  stopped : List String
  errors : List String
deriving DecidableEq

/-- Concatenate two pass results componentwise, in order. -/
def TickResult.app (a b : TickResult) : TickResult :=
  ⟨a.trace ++ b.trace, a.stopped ++ b.stopped, a.errors ++ b.errors⟩

/-- The empty pass result. -/
def TickResult.nil : TickResult := ⟨[], [], []⟩

/-- Error string pushed by the per-user `catch` of `handleConcurrentStreamLimits`. -/
def userErrMsg (userId e : String) : String :=
  "Error checking concurrent limits for user " ++ userId ++ ": " ++ e

/-- Error string pushed by the inner termination `catch` of
`handleConcurrentStreamLimits`. -/
def termErrMsg (sessionId e : String) : String :=
  "Error terminating session " ++ sessionId ++ ": " ++ e

/-- Message of the `TypeError` raised when the termination loop indexes past
the end of `sessionsWithTimes` (possible only when the effective limit is
negative); it is caught by the per-user `catch`. -/
def outOfRangeMsg : String := "Cannot read properties of undefined"

/-- The key used in per-session error strings:
`session.sessionKey || session.Session?.id || 'unknown'`. -/
def errKeyOf (s : PlexSession) : String :=
  (jsOrStr s.sessionKey (jsOrStr (s.session.bind PlexSessionRef.id) (some ("unknown")))).getD
    ("unknown")

/-- Error string pushed by the per-session `catch` of `stopUnapprovedSessions`. -/
def procErrMsg (s : PlexSession) (e : String) : String :=
  "Error processing session " ++ errKeyOf s ++ ": " ++ e

/-- Loop body of `filterCountableSessions` (part of `SessionTerminationService`),
after the `CONCURRENT_LIMIT_INCLUDE_TEMP_ACCESS` setting has been read once. -/
def filterCountableGo (env : Env) (userId : String) (includeTempAccess : Bool) :
    List PlexSession → Except String (List PlexSession)
  | [] => .ok []
  | s :: rest =>
    match deviceIdOf s with
    | none => filterCountableGo env userId includeTempAccess rest
    | some did =>
      match env.findDevice userId did with
      | .error e => .error e
      | .ok dev =>
        if (dev.map UserDevice.excludeFromConcurrentLimit).getD false then
          filterCountableGo env userId includeTempAccess rest
        else
          match dev with
          | some d =>
            if includeTempAccess then
              match filterCountableGo env userId includeTempAccess rest with
              | .error e => .error e
              | .ok tail => .ok (s :: tail)
            else
              match env.isTempAccessValid d with
              | .error e => .error e
              | .ok true => filterCountableGo env userId includeTempAccess rest
              | .ok false =>
                match filterCountableGo env userId includeTempAccess rest with
                | .error e => .error e
                | .ok tail => .ok (s :: tail)
          | none =>
            match filterCountableGo env userId includeTempAccess rest with
            | .error e => .error e
            | .ok tail => .ok (s :: tail)

/-- `SessionTerminationService.filterCountableSessions`. -/
def filterCountableSessions (env : Env) (userId : String) (sessions : List PlexSession) :
    Except String (List PlexSession) :=
  match env.getSetting ("CONCURRENT_LIMIT_INCLUDE_TEMP_ACCESS") with
  | .error e => .error e
  | .ok v => filterCountableGo env userId v.truthy sessions

/-- One entry of `getSessionStartTimes`' result (`{ session, startTime }`). -/
structure TimedSession where
  session : PlexSession
  startTime : Int
deriving DecidableEq

/-- Start time of one session in `getSessionStartTimes`: the most recent
`SessionHistory.startedAt` for its `sessionKey`, defaulting to `Date.now()`
when the key is falsy, no history row exists, or the row's `startedAt` is null
(a `Date` object is always truthy, so `if (history?.startedAt)` tests
precisely existence and non-nullness). -/
def computeStartTime (env : Env) (s : PlexSession) : Except String Int :=
  if optTruthy s.sessionKey then
    match env.findHistory (s.sessionKey.getD "") with
    | .error e => .error e
    | .ok h =>
      match h.bind SessionHistory.startedAt with
      | some t => .ok t
      | none => .ok env.now
  else .ok env.now

/-- `SessionTerminationService.getSessionStartTimes`. -/
def getSessionStartTimes (env : Env) : List PlexSession → Except String (List TimedSession)
  | [] => .ok []
  | s :: rest =>
    match computeStartTime env s with
    | .error e => .error e
    | .ok t =>
      match getSessionStartTimes env rest with
      | .error e => .error e
      | .ok tail => .ok (⟨s, t⟩ :: tail)

/-- Newest-first order used by `sessionsWithTimes.sort((a, b) => b.startTime - a.startTime)`. -/
def newerFirst (a b : TimedSession) : Prop := b.startTime ≤ a.startTime

instance : DecidableRel newerFirst := fun a b => Int.decLe b.startTime a.startTime

instance : IsTotal TimedSession newerFirst :=
  ⟨fun a b => Int.le_total b.startTime a.startTime⟩

instance : IsTrans TimedSession newerFirst :=
  ⟨fun _ _ _ h1 h2 => le_trans h2 h1⟩

/-- The stable newest-first sort of the source (ECMAScript `Array.sort` is
stable; the stable sorted permutation under a total preorder is unique, and
`List.insertionSort` computes it). -/
def sortNewestFirst (l : List TimedSession) : List TimedSession :=
  List.insertionSort newerFirst l

/-- Termination loop of `handleConcurrentStreamLimits`
(`for (let i = 0; i < toTerminate; i++)`): one list element is consumed per
iteration; an element whose session has no truthy `Session.id` is skipped
(`continue`) but still consumes an iteration; running past the end of the list
raises the `TypeError` caught by the per-user `catch`. -/
def termLoop (env : Env) (userId reason : String) : List TimedSession → Int → TickResult
  | l, n =>
    if n ≤ 0 then TickResult.nil
    else
      match l with
      | [] => ⟨[], [], [userErrMsg userId outOfRangeMsg]⟩
      | e :: rest =>
        let tailRes := termLoop env userId reason rest (n - 1)
        match sidOf e.session with
        | none => tailRes
        | some sid =>
          match env.terminate sid reason with
          | .ok _ => ⟨(sid, reason) :: tailRes.trace, sid :: tailRes.stopped, tailRes.errors⟩
          | .error e2 => ⟨(sid, reason) :: tailRes.trace, tailRes.stopped,
              termErrMsg sid e2 :: tailRes.errors⟩

/-- Pre-termination part of the per-user body of
`handleConcurrentStreamLimits` (everything inside the per-user `try` up to the
termination loop): resolves the limit, filters countable sessions, attaches
start times, sorts newest first and resolves the reason text.  `none` means
the user is skipped (unlimited or at/under the limit). -/
def processUserPlan (env : Env) (userId : String) (sessions : List PlexSession) :
    Except String (Option (List TimedSession × Int × String)) :=
  match getEffectiveLimit env userId with
  | .error e => .error e
  | .ok limit =>
    if limit = 0 then .ok none
    else
      match filterCountableSessions env userId sessions with
      | .error e => .error e
      | .ok countable =>
        if (countable.length : Int) ≤ limit then .ok none
        else
          match getSessionStartTimes env countable with
          | .error e => .error e
          | .ok swt =>
            match env.getSetting ("MSG_CONCURRENT_LIMIT") with
            | .error e => .error e
            | .ok msg =>
              .ok (some (sortNewestFirst swt, (countable.length : Int) - limit,
                msg.asStringOr concurrentLimitDefault))

/-- Per-user body of `handleConcurrentStreamLimits`, including its per-user
`catch`. -/
def processUser (env : Env) (userId : String) (sessions : List PlexSession) : TickResult :=
  match processUserPlan env userId sessions with
  | .error e => ⟨[], [], [userErrMsg userId e]⟩
  | .ok none => TickResult.nil
  | .ok (some (sorted, toTerminate, reason)) => termLoop env userId reason sorted toTerminate

/-- Insertion into the `Map<string, any[]>` grouping sessions by user: the
value list of an existing key grows at its end, a new key is appended after
all existing keys (JavaScript `Map` preserves insertion order). -/
def addToGroups (gs : List (String × List PlexSession)) (userId : String) (s : PlexSession) :
    List (String × List PlexSession) :=
  match gs with
  | [] => [(userId, [s])]
  | (k, l) :: rest =>
    if k = userId then (k, l ++ [s]) :: rest else (k, l) :: addToGroups rest userId s

/-- Grouping loop of `handleConcurrentStreamLimits`: sessions without a truthy
user id and Plexamp sessions are skipped. -/
def groupByUser : List PlexSession → List (String × List PlexSession) →
    List (String × List PlexSession)
  | [], gs => gs
  | s :: rest, gs =>
    match userIdOf s with
    | none => groupByUser rest gs
    | some uid =>
      if isPlexampSession s then groupByUser rest gs
      else groupByUser rest (addToGroups gs uid s)

/-- Iteration over the grouped users (`for (const [userId, userSessions] of sessionsByUser)`). -/
def runGroups (env : Env) : List (String × List PlexSession) → TickResult
  | [] => TickResult.nil
  | (userId, us) :: rest => (processUser env userId us).app (runGroups env rest)

/-- `SessionTerminationService.handleConcurrentStreamLimits`. -/
def handleConcurrentStreamLimits (env : Env) (sessions : List PlexSession) : TickResult :=
  runGroups env (groupByUser sessions [])

/-- `SessionTerminationService.terminateSession`'s reason resolution: a falsy
reason is replaced by the `MSG_DEVICE_PENDING` setting or its default. -/
def resolveReason (env : Env) (reason : Option String) : Except String String :=
  if optTruthy reason then .ok (reason.getD "")
  else
    match env.getSetting ("MSG_DEVICE_PENDING") with
    | .error e => .error e
    | .ok v => .ok (v.asStringOr terminateDefaultMsg)

/-- Evaluation-and-termination part of one policy-pass iteration, after the
already-terminated check: evaluate `shouldStopSession` and, when it orders a
stop and the session has a truthy `Session.id`, invoke `terminateSession`.
Failures of the reason lookup or of the upstream call are caught by the
per-session `catch`. -/
def policyEval (env : Env) (s : PlexSession) (sid? : Option String) : TickResult :=
  let r := shouldStopSession env s
  if r.shouldStop then
    match sid? with
    | some sid =>
      match resolveReason env r.reason with
      | .error e => ⟨[], [], [procErrMsg s e]⟩
      | .ok reason =>
        match env.terminate sid reason with
        | .ok _ => ⟨[(sid, reason)], [sid], []⟩
        | .error e => ⟨[(sid, reason)], [], [procErrMsg s e]⟩
    | none => TickResult.nil
  else TickResult.nil

/-- One iteration of the policy pass of `stopUnapprovedSessions`: a session
whose truthy `Session.id` is in the set of ids stopped by the concurrent pass
is skipped. -/
def policyStep (env : Env) (terminatedIds : List String) (s : PlexSession) : TickResult :=
  match sidOf s with
  | some sid => if sid ∈ terminatedIds then TickResult.nil else policyEval env s (some sid)
  | none => policyEval env s none

/-- The policy pass of `stopUnapprovedSessions` (the `for (const session of sessions)` loop). -/
def policyPass (env : Env) (terminatedIds : List String) : List PlexSession → TickResult
  | [] => TickResult.nil
  | s :: rest => (policyStep env terminatedIds s).app (policyPass env terminatedIds rest)

/-- `SessionTerminationService.stopUnapprovedSessions`: the concurrent-cap
pass runs first; the set of session ids it stopped is snapshotted and the
per-session policy pass skips exactly those ids. -/
def stopUnapprovedSessions (env : Env) (data : PlexSessionsResponse) : TickResult :=
  let sessions := data.metadata.getD []
  match sessions with
  | [] => TickResult.nil
  | _ =>
    let cres := handleConcurrentStreamLimits env sessions
    cres.app (policyPass env cres.stopped sessions)

/-- Session ids of the terminate invocations of a pass, in order. -/
def traceIds (r : TickResult) : List String := r.trace.map Prod.fst

/-- Outcome of one policy check in the specification's evaluation order:
not decisive, decisively allow, or decisively block. -/
inductive CheckOutcome where
  | pass : CheckOutcome
  | allow : CheckOutcome
  | block (reason : Option String) (stopCode : Option String) : CheckOutcome
deriving DecidableEq

/-- Modelled from the spec: a policy check as used in section 4.3.1, taking the
environment, the session, and its resolved user and device identifiers. -/
def PolicyCheck : Type :=
  Env → PlexSession → String → String → Except String CheckOutcome

/-- Modelled from the spec: "short-circuit on first decisive outcome" — run
checks in order, stop at the first `allow` or `block`; if none is decisive the
session is allowed. -/
def runChecks (env : Env) (s : PlexSession) (userId deviceIdentifier : String) :
    List PolicyCheck → Except String StopDecision
  | [] => .ok allowDecision
  | c :: rest =>
    match c env s userId deviceIdentifier with
    | .error e => .error e
    | .ok .pass => runChecks env s userId deviceIdentifier rest
    | .ok .allow => .ok allowDecision
    | .ok (.block r sc) => .ok { shouldStop := true, reason := r, stopCode := sc }

/-- Specification step 1, product bypass: Plexamp sessions are decisively
allowed. -/
def productBypassCheck : PolicyCheck := fun _ s _ _ =>
  .ok (if isPlexampSession s then .allow else .pass)

/-- Specification step 2, temporary access with `bypass_policies`: decisively
allow, otherwise not decisive. -/
def tempBypassCheck : PolicyCheck := fun env _ userId deviceIdentifier =>
  match env.findDevice userId deviceIdentifier with
  | .error e => .error e
  | .ok (some d) =>
    match env.isTempAccessValid d with
    | .error e => .error e
    | .ok tv => .ok (if tv && d.temporaryAccessBypassPolicies then .allow else .pass)
  | .ok none => .ok .pass

/-- Specification step 3, IP policy (network policy then allow-list), with the
engine's IP evaluator as the rule content. -/
def ipPolicyCheck : PolicyCheck := fun env s _ _ =>
  let r := validateIPAccess env s
  .ok (if r.allowed then .pass else .block (some (jsInterp r.reason)) r.stopCode)

/-- Specification step 4, time policy, with the engine's time evaluator as the
rule content. -/
def timePolicyCheck : PolicyCheck := fun env _ userId deviceIdentifier =>
  match env.isTimeScheduleAllowed userId deviceIdentifier with
  | .error e => .error e
  | .ok true => .ok .pass
  | .ok false =>
    match env.getPolicySummary userId deviceIdentifier with
    | .error e => .error e
    | .ok summary =>
      match env.getSetting ("MSG_TIME_RESTRICTED") with
      | .error e => .error e
      | .ok msg =>
        .ok (.block (some (msg.asStringOr (timeRestrictedDefault summary)))
          (some ("TIME_RESTRICTED")))

/-- Specification step 5, device approval (pending/missing, rejected,
approved), with the engine's approval evaluator as the rule content; approved
devices fall through (not decisive). -/
def deviceApprovalCheck : PolicyCheck := fun env _ userId deviceIdentifier =>
  match env.findDevice userId deviceIdentifier with
  | .error e => .error e
  | .ok dev =>
    match deviceApprovalStage env userId dev with
    | .error e => .error e
    | .ok r => .ok (if r.shouldStop then .block r.reason r.stopCode else .allow)

/-- The specification's section 4.3.1 check order. -/
def specCheckOrder : List PolicyCheck :=
  [productBypassCheck, tempBypassCheck, ipPolicyCheck, timePolicyCheck, deviceApprovalCheck]

/-- Lexicographic comparison of character lists (code-point order). -/
def charListLe : List Char → List Char → Bool
  | [], _ => true
  | _ :: _, [] => false
  | c :: cs, d :: ds =>
    if c < d then true else if d < c then false else charListLe cs ds

/-- Lexicographic comparison of strings through their character lists. -/
def strLexLe (a b : String) : Bool := charListLe a.data b.data

/-- Modelled from the spec: section 4.3.2's ordering of countable sessions,
"by `SessionHistory.started_at` descending (newest first); break ties by
`session_key` lexicographically". -/
def specNewerFirstKey (a b : TimedSession) : Prop :=
  b.startTime < a.startTime ∨
    (b.startTime = a.startTime ∧
      strLexLe (a.session.sessionKey.getD "") (b.session.sessionKey.getD "") = true)

instance : DecidableRel specNewerFirstKey := fun a b => by
  unfold specNewerFirstKey; infer_instance

/-- Modelled from the spec: the concurrent-cap ordering with the session-key
tie-break, used to compare the specified selection with the code's. -/
def specOrderSort (l : List TimedSession) : List TimedSession :=
  List.insertionSort specNewerFirstKey l

/-- `UserDevice` row as read by the user portal (`user-portal.service.ts`),
restricted to the fields `requestDeviceApproval` touches. -/
structure PortalDevice where
  id : Int
  userId : String
  status : String
  requestDescription : Option String := none
  requestSubmittedAt : Option Int := none
deriving DecidableEq

/-- Database state seen by `UserPortalService`: the device table, the
`app_settings` table, and the clock. -/
structure PortalState where
  devices : List PortalDevice
  settings : List (String × String)
  now : Int
deriving DecidableEq

/-- `UserPortalService.getSetting`: `setting?.value || null` (an empty stored
value collapses to null). -/
def portalGetSetting (st : PortalState) (key : String) : Option String :=
  match st.settings.find? (fun kv => kv.1 = key) with
  | none => none
  | some kv => if strTruthy kv.2 then some kv.2 else none

/-- `UserPortalService.getBooleanSetting`. -/
def portalGetBool (st : PortalState) (key : String) (dflt : Bool) : Bool :=
  match portalGetSetting st key with
  | none => dflt
  | some v => v = "true"

/-- `userDeviceRepository.findOne({ where: { id: deviceId } })`. -/
def findDeviceById (st : PortalState) (deviceId : Int) : Option PortalDevice :=
  st.devices.find? (fun d => d.id = deviceId)

/-- `UserPortalService.requestDeviceApproval`: `Except.error` models a thrown
`ForbiddenException` (the device table is returned unchanged only through the
`.ok` branch); on success the device row receives the note and the submission
timestamp.  The notification fan-out is external and swallows its own errors,
so it has no observable effect here. -/
def requestDeviceApproval (st : PortalState) (plexUserId : String) (deviceId : Int)
    (description : Option String) : Except String (List PortalDevice) :=
  match findDeviceById st deviceId with
  | none => .error ("Device not found")
  | some device =>
    if device.userId ≠ plexUserId then .error ("Access denied to this device")
    else if device.status = "approved" then .error ("Device is already approved")
    else if device.requestSubmittedAt.isSome then
      .error ("A note has already been submitted for this device. You can only submit once.")
    else if device.status = "rejected" ∧
        portalGetBool st ("USER_PORTAL_ALLOW_REJECTED_REQUESTS") true = false then
      .error ("Adding notes for rejected devices is not allowed")
    else
      .ok (st.devices.map (fun d =>
        if d.id = deviceId then
          { d with requestDescription := some (strOrDefault description ""),
                   requestSubmittedAt := some st.now }
        else d))

/-- Base environment for concrete scenarios: empty tables, null settings,
permissive external policies, succeeding terminations. -/
def baseEnv : Env where
  now := 1000
  findDevice := fun _ _ => .ok none
  findPreference := fun _ => .ok none
  findHistory := fun _ => .ok none
  getSetting := fun _ => .ok .vNull
  isTempAccessValid := fun _ => .ok false
  isTimeScheduleAllowed := fun _ _ => .ok true
  getPolicySummary := fun _ _ => .ok ""
  getEffectiveDefaultBlock := fun _ => .ok false
  ipValidate := fun _ _ _ => .ok { allowed := true }
  terminate := fun _ _ => .ok ()

/-- Scenario session: user u1, device m1, session id sA, history key k1. -/
def w1A : PlexSession :=
  { sessionKey := some ("k1"), user := some { id := some ("u1") },
    player := some { machineIdentifier := some ("m1"), address := some ("10.0.0.1") },
    session := some { id := some ("sA") } }

/-- Scenario session: user u1, device m2, session id sB, history key k2. -/
def w1B : PlexSession :=
  { sessionKey := some ("k2"), user := some { id := some ("u1") },
    player := some { machineIdentifier := some ("m2"), address := some ("10.0.0.2") },
    session := some { id := some ("sB") } }

/-- Scenario: user u1 capped at one stream, histories k1 at 200 and k2 at 100. -/
def envW1 : Env :=
  { baseEnv with
    findPreference := fun u =>
      if u = "u1" then .ok (some { concurrentStreamLimit := some 1 }) else .ok none,
    findHistory := fun k =>
      if k = "k1" then .ok (some { startedAt := some 200 })
      else if k = "k2" then .ok (some { startedAt := some 100 })
      else .ok none }

/-- Scenario session for the tie counterexample: session key b, id sid1. -/
def x1A : PlexSession :=
  { sessionKey := some ("b"), user := some { id := some ("u") },
    player := some { machineIdentifier := some ("mx1"), address := some ("10.0.0.3") },
    session := some { id := some ("sid1") } }

/-- Scenario session for the tie counterexample: session key a, id sid2. -/
def x1B : PlexSession :=
  { sessionKey := some ("a"), user := some { id := some ("u") },
    player := some { machineIdentifier := some ("mx2"), address := some ("10.0.0.4") },
    session := some { id := some ("sid2") } }

/-- Scenario: user u capped at one stream, both history keys started at 100
(a started-at tie). -/
def envX1 : Env :=
  { baseEnv with
    findPreference := fun u =>
      if u = "u" then .ok (some { concurrentStreamLimit := some 1 }) else .ok none,
    findHistory := fun k =>
      if k = "a" ∨ k = "b" then .ok (some { startedAt := some 100 }) else .ok none }

/-- Plain scenario session with a user id and a device identifier. -/
def s2w : PlexSession :=
  { sessionKey := some ("k2w"), user := some { id := some ("u2") },
    player := some { machineIdentifier := some ("m2w"), address := some ("10.0.0.5") },
    session := some { id := some ("s2id") } }

/-- Scenario Plexamp session of user u3. -/
def p3 : PlexSession :=
  { sessionKey := some ("kp"), user := some { id := some ("u3") },
    player := some { machineIdentifier := some ("m3"), product := some ("Plexamp"),
                     address := some ("10.0.0.6") },
    session := some { id := some ("p1") } }

/-- Scenario non-Plexamp session of user u3. -/
def q3 : PlexSession :=
  { sessionKey := some ("kq"), user := some { id := some ("u3") },
    player := some { machineIdentifier := some ("m3q"), address := some ("10.0.0.7") },
    session := some { id := some ("q1") } }

/-- Snapshot holding the Plexamp session and a sibling session. -/
def data3 : PlexSessionsResponse := { metadata := some [p3, q3] }

/-- Scenario session of user u4: id ya, history key ka. -/
def x4A : PlexSession :=
  { sessionKey := some ("ka"), user := some { id := some ("u4") },
    player := some { machineIdentifier := some ("ma"), address := some ("9.9.9.9") },
    session := some { id := some ("ya") } }

/-- Scenario session of user u4: id yb, history key kb. -/
def x4B : PlexSession :=
  { sessionKey := some ("kb"), user := some { id := some ("u4") },
    player := some { machineIdentifier := some ("mb"), address := some ("9.9.9.9") },
    session := some { id := some ("yb") } }

/-- Scenario: user u4 capped at one stream, every device rejected, and the
upstream terminate call failing. -/
def envX4 : Env :=
  { baseEnv with
    terminate := fun _ _ => .error "upstream 500",
    findDevice := fun _ _ => .ok (some { status := "rejected" }),
    findPreference := fun u =>
      if u = "u4" then .ok (some { concurrentStreamLimit := some 1 }) else .ok none,
    findHistory := fun k =>
      if k = "ka" then .ok (some { startedAt := some 200 })
      else if k = "kb" then .ok (some { startedAt := some 100 })
      else .ok none }

/-- Snapshot with the two u4 sessions. -/
def data4 : PlexSessionsResponse := { metadata := some [x4A, x4B] }

/-- The same scenario as `envX4` but with terminations succeeding. -/
def envW4 : Env := { envX4 with terminate := fun _ _ => .ok () }

/-- Scenario: the device lookup rejects (database failure). -/
def envE5 : Env := { baseEnv with findDevice := fun _ _ => .error "db down" }

/-- Plain scenario session of user u5. -/
def s5 : PlexSession :=
  { sessionKey := some ("k5"), user := some { id := some ("u5") },
    player := some { machineIdentifier := some ("m5"), address := some ("10.0.0.8") },
    session := some { id := some ("s5id") } }

/-- Scenario: every user's preference row sets a concurrent limit of 0. -/
def envW6 : Env :=
  { baseEnv with findPreference := fun _ => .ok (some { concurrentStreamLimit := some 0 }) }

/-- Scenario session of user u7 with no `Player.address`. -/
def s7 : PlexSession :=
  { sessionKey := some ("k7"), user := some { id := some ("u7") },
    player := some { machineIdentifier := some ("m7") },
    session := some { id := some ("s7id") } }

/-- Snapshot holding only the addressless session. -/
def data7 : PlexSessionsResponse := { metadata := some [s7] }

/-- Rejected portal device with no note yet. -/
def dev9a : PortalDevice := { id := 1, userId := "u9", status := "rejected" }

/-- Portal state forbidding notes on rejected devices. -/
def st9X : PortalState :=
  { devices := [dev9a], settings := [("USER_PORTAL_ALLOW_REJECTED_REQUESTS", "false")],
    now := 500 }

/-- Pending portal device whose note was already submitted. -/
def dev9b : PortalDevice :=
  { id := 2, userId := "u9", status := "pending", requestSubmittedAt := some 42 }

/-- Pending portal device with no note yet. -/
def dev9c : PortalDevice := { id := 3, userId := "u9", status := "pending" }

/-- Portal state with default settings and the two pending devices. -/
def st9W : PortalState := { devices := [dev9b, dev9c], settings := [], now := 500 }

/-- Scenario: history key kk started at 50; everything else unknown. -/
def envW10 : Env :=
  { baseEnv with
    findHistory := fun k => if k = "kk" then .ok (some { startedAt := some 50 }) else .ok none }

/-- Scenario session with no session key (unknown start). -/
def u10a : PlexSession :=
  { sessionKey := none, user := some { id := some ("u10") },
    player := some { machineIdentifier := some ("mA"), address := some ("10.0.0.9") },
    session := some { id := some ("x1") } }

/-- Scenario session with history key kk (recorded start 50). -/
def u10b : PlexSession :=
  { sessionKey := some ("kk"), user := some { id := some ("u10") },
    player := some { machineIdentifier := some ("mB"), address := some ("10.0.0.10") },
    session := some { id := some ("x2") } }

theorem traceIds_app (a b : TickResult) : traceIds (a.app b) = traceIds a ++ traceIds b := by
  simp [traceIds, TickResult.app]

theorem traceIds_nil : traceIds TickResult.nil = [] := rfl

theorem length_filterMap_of_isSome {α β : Type} (f : α → Option β) :
    ∀ l : List α, (∀ a ∈ l, (f a).isSome) → (l.filterMap f).length = l.length := by
  intro l
  induction l with
  | nil => intro _; rfl
  | cons a rest ih =>
    intro h
    have ha := h a (by simp)
    obtain ⟨b, hb⟩ := Option.isSome_iff_exists.mp ha
    simp [List.filterMap_cons, hb, ih (fun x hx => h x (by simp [hx]))]

theorem termLoop_traceIds (env : Env) (userId reason : String) :
    ∀ (l : List TimedSession) (n : Int),
      traceIds (termLoop env userId reason l n) =
        (l.take n.toNat).filterMap (fun e => sidOf e.session) := by
  intro l
  induction l with
  | nil =>
    intro n
    rw [termLoop]
    split
    · simp [traceIds, TickResult.nil]
    · simp [traceIds]
  | cons e rest ih =>
    intro n
    rw [termLoop]
    split
    · rename_i hn
      have : n.toNat = 0 := by omega
      simp [this, traceIds, TickResult.nil]
    · rename_i hn
      have htn : n.toNat = (n - 1).toNat + 1 := by omega
      rw [htn, List.take_succ_cons]
      cases hsid : sidOf e.session with
      | none =>
        simp only [hsid, List.filterMap_cons]
        exact ih (n - 1)
      | some sid =>
        cases ht : env.terminate sid reason with
        | ok u =>
          cases u
          simp only [hsid, ht, List.filterMap_cons, traceIds, List.map_cons]
          rw [← traceIds, ih (n - 1)]
        | error e2 =>
          simp only [hsid, ht, List.filterMap_cons, traceIds, List.map_cons]
          rw [← traceIds, ih (n - 1)]

theorem termLoop_stopped (env : Env) (userId reason : String)
    (hok : ∀ sid r, env.terminate sid r = .ok ()) :
    ∀ (l : List TimedSession) (n : Int),
      (termLoop env userId reason l n).stopped = traceIds (termLoop env userId reason l n) := by
  intro l
  induction l with
  | nil =>
    intro n
    rw [termLoop]
    split <;> simp [traceIds, TickResult.nil]
  | cons e rest ih =>
    intro n
    rw [termLoop]
    split
    · simp [traceIds, TickResult.nil]
    · cases hsid : sidOf e.session with
      | none => exact ih (n - 1)
      | some sid =>
        simp [hok sid reason, traceIds, ih (n - 1)]

theorem getSessionStartTimes_length (env : Env) :
    ∀ (l : List PlexSession) (swt : List TimedSession),
      getSessionStartTimes env l = .ok swt → swt.length = l.length := by
  intro l
  induction l with
  | nil =>
    intro swt h
    rw [getSessionStartTimes] at h
    cases h
    rfl
  | cons s rest ih =>
    intro swt h
    rw [getSessionStartTimes] at h
    cases hc : computeStartTime env s with
    | error e => rw [hc] at h; cases h
    | ok t =>
      rw [hc] at h
      cases hr : getSessionStartTimes env rest with
      | error e => rw [hr] at h; cases h
      | ok tail =>
        rw [hr] at h
        cases h
        simp [ih tail hr]

theorem getSessionStartTimes_map (env : Env) :
    ∀ (l : List PlexSession) (swt : List TimedSession),
      getSessionStartTimes env l = .ok swt → swt.map TimedSession.session = l := by
  intro l
  induction l with
  | nil =>
    intro swt h
    rw [getSessionStartTimes] at h
    cases h
    rfl
  | cons s rest ih =>
    intro swt h
    rw [getSessionStartTimes] at h
    cases hc : computeStartTime env s with
    | error e => rw [hc] at h; cases h
    | ok t =>
      rw [hc] at h
      cases hr : getSessionStartTimes env rest with
      | error e => rw [hr] at h; cases h
      | ok tail =>
        rw [hr] at h
        cases h
        simp [ih tail hr]

theorem getSessionStartTimes_mem (env : Env) :
    ∀ (l : List PlexSession) (swt : List TimedSession) (s : PlexSession) (t : Int),
      getSessionStartTimes env l = .ok swt → s ∈ l → computeStartTime env s = .ok t →
        (⟨s, t⟩ : TimedSession) ∈ swt := by
  intro l
  induction l with
  | nil => intro swt s t _ hs; cases hs
  | cons a rest ih =>
    intro swt s t h hs hct
    rw [getSessionStartTimes] at h
    cases hc : computeStartTime env a with
    | error e => rw [hc] at h; cases h
    | ok ta =>
      rw [hc] at h
      cases hr : getSessionStartTimes env rest with
      | error e => rw [hr] at h; cases h
      | ok tail =>
        rw [hr] at h
        cases h
        rcases List.mem_cons.mp hs with rfl | hmem
        · rw [hct] at hc
          cases hc
          simp
        · simp [ih tail s t hr hmem hct]

theorem sortNewestFirst_perm (l : List TimedSession) :
    List.Perm (sortNewestFirst l) l :=
  List.perm_insertionSort newerFirst l

theorem sortNewestFirst_sorted (l : List TimedSession) :
    List.Sorted newerFirst (sortNewestFirst l) :=
  List.sorted_insertionSort newerFirst l

theorem filterCountableGo_sublist (env : Env) (userId : String) (inc : Bool) :
    ∀ (l out : List PlexSession), filterCountableGo env userId inc l = .ok out →
      List.Sublist out l := by
  intro l
  induction l with
  | nil =>
    intro out h
    rw [filterCountableGo] at h
    cases h
    exact List.Sublist.refl []
  | cons s rest ih =>
    intro out h
    rw [filterCountableGo] at h
    split at h
    · exact (ih out h).cons s
    · split at h
      · cases h
      · split at h
        · exact (ih out h).cons s
        · split at h
          · split at h
            · split at h
              · cases h
              · rename_i tail htail
                cases h
                exact (ih tail htail).cons₂ s
            · split at h
              · cases h
              · exact (ih out h).cons s
              · split at h
                · cases h
                · rename_i tail htail
                  cases h
                  exact (ih tail htail).cons₂ s
          · split at h
            · cases h
            · rename_i tail htail
              cases h
              exact (ih tail htail).cons₂ s

theorem filterCountableSessions_sublist (env : Env) (userId : String)
    (l out : List PlexSession) (h : filterCountableSessions env userId l = .ok out) :
    List.Sublist out l := by
  rw [filterCountableSessions] at h
  cases hs : env.getSetting ("CONCURRENT_LIMIT_INCLUDE_TEMP_ACCESS") with
  | error e => rw [hs] at h; cases h
  | ok v =>
    rw [hs] at h
    exact filterCountableGo_sublist env userId v.truthy l out h

/-- Invariant of the grouping map: property `P` holds of every session filed
under every key. -/
def goodGroups (P : PlexSession → String → Prop) (gs : List (String × List PlexSession)) :
    Prop :=
  ∀ p ∈ gs, ∀ s ∈ p.2, P s p.1

theorem addToGroups_good {P : PlexSession → String → Prop}
    {userId : String} {s : PlexSession} :
    ∀ {gs : List (String × List PlexSession)}, goodGroups P gs → P s userId →
      goodGroups P (addToGroups gs userId s) := by
  intro gs
  induction gs with
  | nil =>
    intro _ hs p hp t ht
    rw [addToGroups] at hp
    rcases List.mem_singleton.mp hp with rfl
    rcases List.mem_singleton.mp ht with rfl
    exact hs
  | cons q rest ih =>
    intro h hs p hp t ht
    obtain ⟨k, l⟩ := q
    rw [addToGroups] at hp
    by_cases hk : k = userId
    · rw [if_pos hk] at hp
      rcases List.mem_cons.mp hp with rfl | hmem
      · rcases List.mem_append.mp ht with hl | hone
        · exact h (k, l) (by simp) t hl
        · rcases List.mem_singleton.mp hone with rfl
          simpa [hk] using hs
      · exact h p (by simp [hmem]) t ht
    · rw [if_neg hk] at hp
      rcases List.mem_cons.mp hp with rfl | hmem
      · exact h (k, l) (by simp) t ht
      · exact ih (fun q2 hq2 t2 ht2 => h q2 (by simp [hq2]) t2 ht2) hs p hmem t ht

theorem groupByUser_good {P : PlexSession → String → Prop} :
    ∀ (l : List PlexSession) (gs : List (String × List PlexSession)),
      goodGroups P gs →
      (∀ s ∈ l, ∀ userId, userIdOf s = some userId → isPlexampSession s = false → P s userId) →
      goodGroups P (groupByUser l gs) := by
  intro l
  induction l with
  | nil => intro gs hgs _; rw [groupByUser]; exact hgs
  | cons s rest ih =>
    intro gs hgs hl
    rw [groupByUser]
    split
    · exact ih gs hgs (fun t ht => hl t (by simp [ht]))
    · rename_i uid huid
      split
      · exact ih gs hgs (fun t ht => hl t (by simp [ht]))
      · rename_i hpx
        exact ih (addToGroups gs uid s)
          (addToGroups_good hgs (hl s (by simp) uid huid (by simpa using hpx)))
          (fun t ht => hl t (by simp [ht]))

/-- All sessions filed in the grouping map, in key order then insertion order. -/
def groupVals (gs : List (String × List PlexSession)) : List PlexSession :=
  (gs.map Prod.snd).flatten

/-- Sessions the grouping loop files: a truthy user id and not Plexamp. -/
def countsInCap (s : PlexSession) : Bool :=
  (userIdOf s).isSome && !(isPlexampSession s)

theorem addToGroups_vals_perm (userId : String) (s : PlexSession) :
    ∀ gs : List (String × List PlexSession),
      List.Perm (groupVals (addToGroups gs userId s)) (s :: groupVals gs) := by
  intro gs
  induction gs with
  | nil => simp [addToGroups, groupVals]
  | cons q rest ih =>
    obtain ⟨k, l⟩ := q
    rw [addToGroups]
    by_cases hk : k = userId
    · rw [if_pos hk]
      simp only [groupVals, List.map_cons, List.flatten_cons, List.append_assoc,
        List.singleton_append]
      exact List.perm_middle
    · rw [if_neg hk]
      simp only [groupVals, List.map_cons, List.flatten_cons]
      exact (ih.append_left l).trans List.perm_middle

theorem groupByUser_vals_perm :
    ∀ (l : List PlexSession) (gs : List (String × List PlexSession)),
      List.Perm (groupVals (groupByUser l gs)) (groupVals gs ++ l.filter countsInCap) := by
  intro l
  induction l with
  | nil => intro gs; rw [groupByUser]; simp
  | cons s rest ih =>
    intro gs
    rw [groupByUser]
    split
    · rename_i huid
      have hc : countsInCap s = false := by simp [countsInCap, huid]
      rw [List.filter_cons, hc]
      simpa using ih gs
    · rename_i uid huid
      split
      · rename_i hpx
        have hc : countsInCap s = false := by simp [countsInCap, hpx]
        rw [List.filter_cons, hc]
        simpa using ih gs
      · rename_i hpx
        have hc : countsInCap s = true := by
          simp [countsInCap, huid]
          simpa using hpx
        rw [List.filter_cons, hc]
        simp only [if_true]
        exact (ih (addToGroups gs uid s)).trans
          (((addToGroups_vals_perm uid s gs).append_right _).trans List.perm_middle.symm)

theorem processUserPlan_inv (env : Env) (userId : String) (us : List PlexSession)
    (sorted : List TimedSession) (n : Int) (r : String)
    (h : processUserPlan env userId us = .ok (some (sorted, n, r))) :
    ∃ (limit : Int) (countable : List PlexSession) (swt : List TimedSession),
      getEffectiveLimit env userId = .ok limit ∧
      filterCountableSessions env userId us = .ok countable ∧
      getSessionStartTimes env countable = .ok swt ∧
      sorted = sortNewestFirst swt ∧ n = (countable.length : Int) - limit := by
  rw [processUserPlan] at h
  split at h
  · cases h
  · rename_i limit hlim
    split at h
    · cases h
    · split at h
      · cases h
      · rename_i countable hcnt
        split at h
        · cases h
        · split at h
          · cases h
          · rename_i swt hswt
            split at h
            · cases h
            · rename_i msg hmsg
              cases h
              exact ⟨limit, countable, swt, hlim, hcnt, hswt, rfl, rfl⟩

theorem processUser_count (env : Env) (userId : String) (us : List PlexSession) (sid : String) :
    (traceIds (processUser env userId us)).count sid ≤ (us.filterMap sidOf).count sid := by
  rw [processUser]
  split
  · simp [traceIds]
  · simp [traceIds, TickResult.nil]
  · rename_i sorted n r hplan
    obtain ⟨limit, countable, swt, -, hC, hswt, hsorted, -⟩ :=
      processUserPlan_inv env userId us sorted n r hplan
    rw [termLoop_traceIds, hsorted]
    have h1 := ((List.take_sublist n.toNat (sortNewestFirst swt)).filterMap
      (fun e => sidOf e.session)).count_le sid
    have h2 := (((sortNewestFirst_perm swt)).filterMap (fun e => sidOf e.session)).count_eq sid
    have h4 : swt.filterMap (fun e => sidOf e.session) = countable.filterMap sidOf := by
      have hmap := getSessionStartTimes_map env countable swt hswt
      rw [← hmap, List.filterMap_map]
      rfl
    have h5 := ((filterCountableSessions_sublist env userId us countable hC).filterMap
      sidOf).count_le sid
    rw [h4] at h2
    omega

theorem runGroups_count (env : Env) (sid : String) :
    ∀ gs : List (String × List PlexSession),
      (traceIds (runGroups env gs)).count sid ≤ ((groupVals gs).filterMap sidOf).count sid := by
  intro gs
  induction gs with
  | nil => simp [runGroups, traceIds, TickResult.nil, groupVals]
  | cons p rest ih =>
    obtain ⟨userId, us⟩ := p
    rw [runGroups, traceIds_app, List.count_append]
    have h2 : groupVals ((userId, us) :: rest) = us ++ groupVals rest := by simp [groupVals]
    rw [h2, List.filterMap_append, List.count_append]
    have h1 := processUser_count env userId us sid
    omega

theorem handleConcurrent_count (env : Env) (l : List PlexSession) (sid : String) :
    (traceIds (handleConcurrentStreamLimits env l)).count sid ≤ (l.filterMap sidOf).count sid := by
  rw [handleConcurrentStreamLimits]
  have h1 := runGroups_count env sid (groupByUser l [])
  have h2 := ((groupByUser_vals_perm l []).filterMap sidOf).count_eq sid
  have h3 := ((List.filter_sublist (p := countsInCap) l).filterMap sidOf).count_le sid
  have h4 : groupVals ([] : List (String × List PlexSession)) ++ l.filter countsInCap =
      l.filter countsInCap := by simp [groupVals]
  rw [h4] at h2
  omega

theorem policyEval_none (env : Env) (s : PlexSession) :
    policyEval env s none = TickResult.nil := by
  rw [policyEval]
  split <;> rfl

theorem policyEval_some_trace (env : Env) (s : PlexSession) (sid : String) :
    traceIds (policyEval env s (some sid)) = [] ∨
      (traceIds (policyEval env s (some sid)) = [sid] ∧
        (shouldStopSession env s).shouldStop = true) := by
  rw [policyEval]
  split
  · rename_i hstop
    split
    · left; rfl
    · rename_i reason hres
      split
      · right; exact ⟨rfl, hstop⟩
      · right; exact ⟨rfl, hstop⟩
  · left; rfl

theorem policyStep_trace_mem (env : Env) (terminatedIds : List String) (s : PlexSession)
    (sid : String) (h : sid ∈ traceIds (policyStep env terminatedIds s)) :
    sidOf s = some sid ∧ sid ∉ terminatedIds ∧ (shouldStopSession env s).shouldStop = true := by
  rw [policyStep] at h
  split at h
  · rename_i sid2 hsid2
    split at h
    · simp [traceIds, TickResult.nil] at h
    · rename_i hnot
      rcases policyEval_some_trace env s sid2 with he | ⟨he, hstop⟩
      · rw [he] at h; cases h
      · rw [he] at h
        rcases List.mem_singleton.mp h with rfl
        exact ⟨hsid2, hnot, hstop⟩
  · rw [policyEval_none] at h
    cases h

theorem policyPass_trace_mem (env : Env) (terminatedIds : List String) :
    ∀ (l : List PlexSession) (sid : String), sid ∈ traceIds (policyPass env terminatedIds l) →
      ∃ s ∈ l, sidOf s = some sid ∧ sid ∉ terminatedIds ∧
        (shouldStopSession env s).shouldStop = true := by
  intro l
  induction l with
  | nil => intro sid h; cases h
  | cons s rest ih =>
    intro sid h
    rw [policyPass, traceIds_app] at h
    rcases List.mem_append.mp h with hh | ht
    · obtain ⟨h1, h2, h3⟩ := policyStep_trace_mem env terminatedIds s sid hh
      exact ⟨s, by simp, h1, h2, h3⟩
    · obtain ⟨t, htl, h1, h2, h3⟩ := ih sid ht
      exact ⟨t, by simp [htl], h1, h2, h3⟩

theorem policyStep_trace_sub (env : Env) (terminatedIds : List String) (s : PlexSession) :
    List.Sublist (traceIds (policyStep env terminatedIds s)) (sidOf s).toList := by
  rw [policyStep]
  split
  · rename_i sid hsid
    split
    · simp [traceIds, TickResult.nil]
    · rcases policyEval_some_trace env s sid with he | ⟨he, -⟩ <;>
        simp [he, hsid, Option.toList]
  · rw [policyEval_none]
    simp [traceIds, TickResult.nil]

theorem policyPass_count (env : Env) (terminatedIds : List String) :
    ∀ (l : List PlexSession) (sid : String),
      (traceIds (policyPass env terminatedIds l)).count sid ≤ (l.filterMap sidOf).count sid := by
  intro l
  induction l with
  | nil => intro sid; simp [policyPass, traceIds, TickResult.nil]
  | cons s rest ih =>
    intro sid
    rw [policyPass, traceIds_app, List.count_append]
    have h1 := (policyStep_trace_sub env terminatedIds s).count_le sid
    have h2 := ih sid
    cases hsid : sidOf s with
    | none =>
      rw [hsid] at h1
      simp only [Option.toList, List.count_nil] at h1
      rw [List.filterMap_cons_none hsid]
      omega
    | some sid2 =>
      rw [hsid] at h1
      simp only [Option.toList] at h1
      rw [List.filterMap_cons_some hsid, List.count_cons]
      simp only [beq_iff_eq]
      have h3 : List.count sid [sid2] = if sid2 = sid then 1 else 0 := by
        rw [List.count_cons]
        simp only [beq_iff_eq, List.count_nil]
        omega
      rw [h3] at h1
      omega

theorem policyPass_avoid (env : Env) (terminatedIds : List String) (l : List PlexSession)
    (sid : String) (hmem : sid ∈ terminatedIds) :
    sid ∉ traceIds (policyPass env terminatedIds l) := by
  intro h
  obtain ⟨s, -, -, hnot, -⟩ := policyPass_trace_mem env terminatedIds l sid h
  exact hnot hmem

theorem processUser_stopped (env : Env) (userId : String) (us : List PlexSession)
    (hok : ∀ sid r, env.terminate sid r = .ok ()) :
    (processUser env userId us).stopped = traceIds (processUser env userId us) := by
  rw [processUser]
  split
  · rfl
  · rfl
  · exact (termLoop_stopped env userId _ hok _ _).symm ▸ termLoop_stopped env userId _ hok _ _

theorem runGroups_stopped (env : Env) (hok : ∀ sid r, env.terminate sid r = .ok ()) :
    ∀ gs : List (String × List PlexSession),
      (runGroups env gs).stopped = traceIds (runGroups env gs) := by
  intro gs
  induction gs with
  | nil => rfl
  | cons p rest ih =>
    obtain ⟨userId, us⟩ := p
    rw [runGroups]
    simp only [TickResult.app, traceIds, List.map_append]
    rw [← traceIds, ← traceIds, processUser_stopped env userId us hok, ih]

theorem handleConcurrent_stopped (env : Env) (l : List PlexSession)
    (hok : ∀ sid r, env.terminate sid r = .ok ()) :
    (handleConcurrentStreamLimits env l).stopped =
      traceIds (handleConcurrentStreamLimits env l) := by
  rw [handleConcurrentStreamLimits]
  exact runGroups_stopped env hok (groupByUser l [])

theorem termLoop_trace_mem (env : Env) (userId reason : String) (l : List TimedSession)
    (n : Int) (sid : String) (h : sid ∈ traceIds (termLoop env userId reason l n)) :
    ∃ e ∈ l, sidOf e.session = some sid := by
  rw [termLoop_traceIds] at h
  obtain ⟨e, he, hfe⟩ := List.mem_filterMap.mp h
  exact ⟨e, List.mem_of_mem_take he, hfe⟩

theorem processUser_trace_mem (env : Env) (userId : String) (us : List PlexSession)
    (sid : String) (h : sid ∈ traceIds (processUser env userId us)) :
    ∃ s ∈ us, sidOf s = some sid := by
  rw [processUser] at h
  split at h
  · cases h
  · cases h
  · rename_i sorted n r hplan
    obtain ⟨limit, countable, swt, -, hC, hswt, hsorted, -⟩ :=
      processUserPlan_inv env userId us sorted n r hplan
    obtain ⟨e, he, hfe⟩ := termLoop_trace_mem env userId r sorted n sid h
    rw [hsorted] at he
    have hesw : e ∈ swt := ((sortNewestFirst_perm swt).mem_iff).mp he
    have hmap := getSessionStartTimes_map env countable swt hswt
    have hses : e.session ∈ countable := by
      rw [← hmap]
      exact List.mem_map_of_mem TimedSession.session hesw
    exact ⟨e.session,
      (filterCountableSessions_sublist env userId us countable hC).subset hses, hfe⟩

theorem runGroups_trace_mem (env : Env) :
    ∀ (gs : List (String × List PlexSession)) (sid : String),
      sid ∈ traceIds (runGroups env gs) →
        ∃ p ∈ gs, ∃ s ∈ p.2, sidOf s = some sid := by
  intro gs
  induction gs with
  | nil => intro sid h; cases h
  | cons p rest ih =>
    obtain ⟨userId, us⟩ := p
    intro sid h
    rw [runGroups, traceIds_app] at h
    rcases List.mem_append.mp h with hh | ht
    · obtain ⟨s, hs, hfs⟩ := processUser_trace_mem env userId us sid hh
      exact ⟨(userId, us), by simp, s, hs, hfs⟩
    · obtain ⟨q, hq, s, hs, hfs⟩ := ih sid ht
      exact ⟨q, by simp [hq], s, hs, hfs⟩

theorem handleConcurrent_trace_mem (env : Env) (l : List PlexSession) (sid : String)
    (h : sid ∈ traceIds (handleConcurrentStreamLimits env l)) :
    ∃ s ∈ l, sidOf s = some sid ∧ isPlexampSession s = false := by
  rw [handleConcurrentStreamLimits] at h
  obtain ⟨p, hp, s, hs, hfs⟩ := runGroups_trace_mem env (groupByUser l []) sid h
  have hgood := groupByUser_good (P := fun t _ => t ∈ l ∧ isPlexampSession t = false) l []
    (by intro q hq; cases hq)
    (by intro t ht _ _ hpx; exact ⟨ht, hpx⟩)
  obtain ⟨hmem, hpx⟩ := hgood p hp s hs
  exact ⟨s, hmem, hfs, hpx⟩

theorem shouldStopInner_plexamp (env : Env) (s : PlexSession)
    (h : isPlexampSession s = true) :
    shouldStopSessionInner env s = .ok allowDecision := by
  rw [shouldStopSessionInner]
  split
  · simp [h]
  · rfl

theorem shouldStop_plexamp (env : Env) (s : PlexSession) (h : isPlexampSession s = true) :
    shouldStopSession env s = allowDecision := by
  rw [shouldStopSession, shouldStopInner_plexamp env s h]

/-- C1 (amended). Concurrent-stream cap selection: for a user whose countable
sessions number `N` exceed the effective limit `L > 0` (with the start-time
attachment and the reason lookup succeeding), the pass selects exactly
`N - L` sessions for termination — the prefix of the countable sessions
ordered by `SessionHistory` start time descending, newest first, with ties
keeping their snapshot order (the source's comparator
`(a, b) => b.startTime - a.startTime` under ECMAScript's stable sort; there is
no `session_key` tie-break) — the terminate invocations are exactly the
selected sessions' ids, and every selected session is at least as new (its
start time is greater than or equal) as every non-selected session. -/
theorem c1_concurrent_cap_selection (env : Env) (userId : String)
    (sessions countable : List PlexSession) (swt : List TimedSession) (L : Int)
    (hL : getEffectiveLimit env userId = .ok L) (hLpos : 0 < L)
    (hC : filterCountableSessions env userId sessions = .ok countable)
    (hN : L < (countable.length : Int))
    (hswt : getSessionStartTimes env countable = .ok swt)
    (v : JsVal) (hmsg : env.getSetting ("MSG_CONCURRENT_LIMIT") = .ok v) :
    ∃ k : ℕ,
      (k : Int) = (countable.length : Int) - L ∧
      ((sortNewestFirst swt).take k).length = k ∧
      traceIds (processUser env userId sessions) =
        ((sortNewestFirst swt).take k).filterMap (fun e => sidOf e.session) ∧
      ∀ x ∈ (sortNewestFirst swt).take k, ∀ y ∈ (sortNewestFirst swt).drop k,
        y.startTime ≤ x.startTime := by
  have hplan : processUserPlan env userId sessions =
      .ok (some (sortNewestFirst swt, (countable.length : Int) - L,
        v.asStringOr concurrentLimitDefault)) := by
    simp only [processUserPlan, hL, hC, hswt, hmsg]
    rw [if_neg (by omega : ¬ L = 0), if_neg (by omega : ¬ (countable.length : Int) ≤ L)]
  have hlen : (sortNewestFirst swt).length = countable.length := by
    rw [(sortNewestFirst_perm swt).length_eq]
    exact getSessionStartTimes_length env countable swt hswt
  refine ⟨((countable.length : Int) - L).toNat, by omega, ?_, ?_, ?_⟩
  · rw [List.length_take, hlen]
    omega
  · simp only [processUser, hplan]
    rw [termLoop_traceIds]
  · intro x hx y hy
    have hsorted := sortNewestFirst_sorted swt
    have hsplit := List.take_append_drop (((countable.length : Int) - L).toNat)
      (sortNewestFirst swt)
    rw [← hsplit] at hsorted
    exact (List.pairwise_append.mp hsorted).2.2 x hx y hy

/-- C1 counterexample. With two countable sessions tied at start time 100
(history keys b and a, session ids sid1 and sid2, in that snapshot order) and
an effective limit of 1, the code terminates sid1 — the first in snapshot
order, whose session key b is lexicographically greater — while the claimed
ordering (ties broken by `session_key` lexicographically) would select sid2;
and the selected session is not strictly newer than the non-selected one,
refuting both the claimed tie-break and the claimed strict-newness. -/
theorem c1_counterexample :
    getEffectiveLimit envX1 "u" = .ok 1 ∧
    filterCountableSessions envX1 "u" [x1A, x1B] = .ok [x1A, x1B] ∧
    getSessionStartTimes envX1 [x1A, x1B] = .ok [⟨x1A, 100⟩, ⟨x1B, 100⟩] ∧
    x1A.sessionKey = some ("b") ∧ x1B.sessionKey = some ("a") ∧
    traceIds (handleConcurrentStreamLimits envX1 [x1A, x1B]) = ["sid1"] ∧
    ((specOrderSort [⟨x1A, 100⟩, ⟨x1B, 100⟩]).take 1).map
      (fun e => sidOf e.session) = [some ("sid2")] ∧
    ¬ (∀ x ∈ (sortNewestFirst [⟨x1A, 100⟩, ⟨x1B, 100⟩]).take 1,
        ∀ y ∈ (sortNewestFirst [⟨x1A, 100⟩, ⟨x1B, 100⟩]).drop 1,
          y.startTime < x.startTime) := by
  refine ⟨by decide, by decide, by decide, by decide, by decide, by decide, by decide, by decide⟩

/-- C1 witness: user u1, limit 1, two countable sessions started at 200 and
100 — exactly one selected, the newer one, and the separation holds. -/
theorem c1_witness :
    ∃ k : ℕ,
      (k : Int) = (([w1A, w1B] : List PlexSession).length : Int) - 1 ∧
      ((sortNewestFirst [⟨w1A, 200⟩, ⟨w1B, 100⟩]).take k).length = k ∧
      traceIds (processUser envW1 "u1" [w1A, w1B]) =
        ((sortNewestFirst [⟨w1A, 200⟩, ⟨w1B, 100⟩]).take k).filterMap
          (fun e => sidOf e.session) ∧
      ∀ x ∈ (sortNewestFirst [⟨w1A, 200⟩, ⟨w1B, 100⟩]).take k,
        ∀ y ∈ (sortNewestFirst [⟨w1A, 200⟩, ⟨w1B, 100⟩]).drop k,
          y.startTime ≤ x.startTime := by
  have h := c1_concurrent_cap_selection envW1 "u1" [w1A, w1B] [w1A, w1B]
    [⟨w1A, 200⟩, ⟨w1B, 100⟩] 1 (by decide) (by decide) (by decide) (by decide)
    (by decide) .vNull (by decide)
  simpa using h

theorem deviceApprovalStage_shape (env : Env) (userId : String) (dev : Option UserDevice)
    (r : StopDecision) (h : deviceApprovalStage env userId dev = .ok r) :
    r.shouldStop = true ∨ r = allowDecision := by
  rw [deviceApprovalStage.eq_def] at h
  repeat' split at h
  all_goals try cases h
  all_goals first
    | (left; rfl)
    | (right; rfl)

theorem ipTimeDevice_eq_checks (env : Env) (s : PlexSession)
    (userId deviceIdentifier : String) (dev : Option UserDevice)
    (hdev : env.findDevice userId deviceIdentifier = .ok dev) :
    ipTimeDeviceStage env s userId deviceIdentifier dev =
      runChecks env s userId deviceIdentifier
        [ipPolicyCheck, timePolicyCheck, deviceApprovalCheck] := by
  by_cases hip : (validateIPAccess env s).allowed = true
  · cases hta : env.isTimeScheduleAllowed userId deviceIdentifier with
    | error e =>
      simp [ipTimeDeviceStage.eq_def, runChecks, ipPolicyCheck, timePolicyCheck, hip, hta]
    | ok b =>
      cases b with
      | false =>
        cases hsum : env.getPolicySummary userId deviceIdentifier with
        | error e =>
          simp [ipTimeDeviceStage.eq_def, runChecks, ipPolicyCheck, timePolicyCheck,
            hip, hta, hsum]
        | ok summary =>
          cases hmsg : env.getSetting ("MSG_TIME_RESTRICTED") with
          | error e =>
            simp [ipTimeDeviceStage.eq_def, runChecks, ipPolicyCheck, timePolicyCheck,
              hip, hta, hsum, hmsg]
          | ok msg =>
            simp [ipTimeDeviceStage.eq_def, runChecks, ipPolicyCheck, timePolicyCheck,
              hip, hta, hsum, hmsg]
      | true =>
        cases hda : deviceApprovalStage env userId dev with
        | error e =>
          simp [ipTimeDeviceStage.eq_def, runChecks, ipPolicyCheck, timePolicyCheck,
            deviceApprovalCheck, hip, hta, hdev, hda]
        | ok r =>
          rcases deviceApprovalStage_shape env userId dev r hda with hss | rfl
          · obtain ⟨ss, re, sc⟩ := r
            cases hss
            simp [ipTimeDeviceStage.eq_def, runChecks, ipPolicyCheck, timePolicyCheck,
              deviceApprovalCheck, hip, hta, hdev, hda]
          · simp [ipTimeDeviceStage.eq_def, runChecks, ipPolicyCheck, timePolicyCheck,
              deviceApprovalCheck, hip, hta, hdev, hda, allowDecision]
  · simp [ipTimeDeviceStage.eq_def, runChecks, ipPolicyCheck, hip]

/-- C2. Policy evaluation order with short-circuit: on a session with a
resolved user id and device identifier, the body of `shouldStopSession` equals
the generic first-decisive-outcome runner over the specification's check list
— Plexamp product bypass, temporary access with `bypass_policies`, IP policy,
time policy, device approval — so the first decisive allow or block is the
decision and no later check overrides an earlier outcome.  (The concurrent cap
is evaluated separately beforehand by `stopUnapprovedSessions`, which excludes
the cap's terminated ids from this per-session evaluation.) -/
theorem c2_evaluation_order (env : Env) (s : PlexSession)
    (userId deviceIdentifier : String)
    (hu : userIdOf s = some userId) (hd : deviceIdOf s = some deviceIdentifier) :
    shouldStopSessionInner env s =
      runChecks env s userId deviceIdentifier specCheckOrder := by
  simp only [shouldStopSessionInner, hu, hd]
  simp only [specCheckOrder, runChecks, productBypassCheck]
  by_cases hpx : isPlexampSession s = true
  · simp [hpx]
  · simp only [hpx, if_false, Bool.false_eq_true]
    simp only [tempBypassCheck]
    cases hdev : env.findDevice userId deviceIdentifier with
    | error e => simp [hdev]
    | ok dev =>
      cases dev with
      | some d =>
        simp only [hdev]
        cases htv : env.isTempAccessValid d with
        | error e => simp [htv]
        | ok tv =>
          simp only [htv]
          by_cases hbp : (tv && d.temporaryAccessBypassPolicies) = true
          · simp [hbp]
          · simp only [hbp, if_false, Bool.false_eq_true]
            simpa using ipTimeDevice_eq_checks env s userId deviceIdentifier (some d) hdev
      | none =>
        simp only [hdev]
        simpa using ipTimeDevice_eq_checks env s userId deviceIdentifier none hdev

/-- C2 witness: on a concrete session and environment the code's evaluation
equals the specification-ordered runner. -/
theorem c2_witness :
    shouldStopSessionInner baseEnv s2w = runChecks baseEnv s2w "u2" "m2w" specCheckOrder :=
  c2_evaluation_order baseEnv s2w "u2" "m2w" (by decide) (by decide)

theorem TickResult.nil_app (a : TickResult) : TickResult.nil.app a = a := by
  cases a
  simp [TickResult.app, TickResult.nil]

theorem TickResult.app_nil (a : TickResult) : a.app TickResult.nil = a := by
  cases a
  simp [TickResult.app, TickResult.nil]

theorem TickResult.app_assoc (a b c : TickResult) :
    (a.app b).app c = a.app (b.app c) := by
  simp [TickResult.app]

/-- C3. Plexamp invariance: a session whose player product is Plexamp always
receives the allow decision from `shouldStopSession`, and — when its session
id is not shared with another snapshot entry — its id is never passed to
`terminateSession` during the whole tick, across both the concurrent-cap pass
and the policy pass, regardless of any preference, rule, device status, or
cap stored in the environment. -/
theorem c3_plexamp_invariance (env : Env) (data : PlexSessionsResponse) (s : PlexSession)
    (sid : String) (hplex : isPlexampSession s = true)
    (hmem : s ∈ data.metadata.getD []) (_hsid : sidOf s = some sid)
    (huniq : ∀ t ∈ data.metadata.getD [], sidOf t = some sid → t = s) :
    shouldStopSession env s = allowDecision ∧
    sid ∉ traceIds (stopUnapprovedSessions env data) := by
  refine ⟨shouldStop_plexamp env s hplex, ?_⟩
  intro h
  cases hm : data.metadata.getD [] with
  | nil => rw [hm] at hmem; cases hmem
  | cons a rest =>
    simp only [stopUnapprovedSessions, hm, traceIds_app] at h
    rcases List.mem_append.mp h with hc | hp
    · obtain ⟨t, htmem, htsid, htplex⟩ := handleConcurrent_trace_mem env (a :: rest) sid hc
      have : t = s := huniq t (by rw [hm]; exact htmem) htsid
      rw [this, hplex] at htplex
      cases htplex
    · obtain ⟨t, htmem, htsid, -, hstop⟩ := policyPass_trace_mem env _ (a :: rest) sid hp
      have : t = s := huniq t (by rw [hm]; exact htmem) htsid
      rw [this, shouldStop_plexamp env s hplex] at hstop
      cases hstop

/-- C3 witness: a Plexamp session with a unique session id in a two-session
snapshot has decision allow and its id is absent from the tick's terminate
trace. -/
theorem c3_witness :
    shouldStopSession baseEnv p3 = allowDecision ∧
    "p1" ∉ traceIds (stopUnapprovedSessions baseEnv data3) :=
  c3_plexamp_invariance baseEnv data3 p3 "p1" (by decide) (by decide) (by decide)
    (by decide)

/-- C4 counterexample. With the upstream terminate call failing, the session
terminated by the concurrent-cap pass is not recorded in `stoppedSessions`,
so the policy pass invokes `terminateSession` for the same session id again
within the same `stopUnapprovedSessions` call: id ya is invoked twice even
though every snapshot entry has a distinct session id. -/
theorem c4_counterexample :
    traceIds (stopUnapprovedSessions envX4 data4) = ["ya", "ya", "yb"] ∧
    ((data4.metadata.getD []).filterMap sidOf).Nodup ∧
    ¬ (traceIds (stopUnapprovedSessions envX4 data4)).Nodup := by
  refine ⟨by decide, by decide, by decide⟩

/-- C4 (amended). At-most-once termination per tick: within one
`stopUnapprovedSessions` call over a snapshot whose (truthy) session ids are
pairwise distinct, and in which every `terminateSession` upstream call
succeeds, `terminateSession` is invoked at most once for any session id — in
particular a session stopped by the concurrent-cap pass is skipped by the
per-session policy pass.  (When an upstream terminate call fails, the id is
not recorded as stopped and the policy pass may invoke terminate again for
it, as the counterexample shows.) -/
theorem c4_at_most_once (env : Env) (data : PlexSessionsResponse)
    (hnd : ((data.metadata.getD []).filterMap sidOf).Nodup)
    (hok : ∀ sid r, env.terminate sid r = .ok ()) :
    (traceIds (stopUnapprovedSessions env data)).Nodup := by
  cases hm : data.metadata.getD [] with
  | nil => simp [stopUnapprovedSessions, hm, traceIds_nil]
  | cons a rest =>
    simp only [stopUnapprovedSessions, hm, traceIds_app]
    rw [hm] at hnd
    apply List.nodup_iff_count_le_one.mpr
    intro sid
    rw [List.count_append]
    have hc := handleConcurrent_count env (a :: rest) sid
    have hp := policyPass_count env (handleConcurrentStreamLimits env (a :: rest)).stopped
      (a :: rest) sid
    have hnd1 := List.nodup_iff_count_le_one.mp hnd sid
    by_cases hmemc : sid ∈ traceIds (handleConcurrentStreamLimits env (a :: rest))
    · have hst := handleConcurrent_stopped env (a :: rest) hok
      have hmem2 : sid ∈ (handleConcurrentStreamLimits env (a :: rest)).stopped := by
        rw [hst]; exact hmemc
      have hz := List.count_eq_zero.mpr
        (policyPass_avoid env (handleConcurrentStreamLimits env (a :: rest)).stopped
          (a :: rest) sid hmem2)
      omega
    · have hz := List.count_eq_zero.mpr hmemc
      omega

/-- C4 witness: the same two-session scenario with terminations succeeding
has a duplicate-free terminate trace. -/
theorem c4_witness : (traceIds (stopUnapprovedSessions envW4 data4)).Nodup :=
  c4_at_most_once envW4 data4 (by decide) (fun _ _ => rfl)

/-- C5. Fail-open on per-session policy error: whenever the body of
`shouldStopSession` raises (its monadic result is an error), the catch
returns `shouldStop = false` so the session is treated as allow; and the
policy pass over a snapshot is the concatenation of the passes over its
parts, so the evaluation of every other session in the same tick is
unaffected by that session's failure. -/
theorem c5_fail_open (env : Env) (s : PlexSession) (e : String)
    (terminatedIds : List String) (l1 l2 : List PlexSession)
    (herr : shouldStopSessionInner env s = .error e) :
    shouldStopSession env s = allowDecision ∧
    policyPass env terminatedIds (l1 ++ l2) =
      (policyPass env terminatedIds l1).app (policyPass env terminatedIds l2) := by
  constructor
  · rw [shouldStopSession, herr]
  · induction l1 with
    | nil => simp [policyPass, TickResult.nil_app]
    | cons a rest ih =>
      simp only [List.cons_append, policyPass, List.append_eq]
      rw [ih, TickResult.app_assoc]

/-- C5 witness: with the device lookup rejecting, a concrete session's inner
evaluation errors, the decision is allow, and the pass over a two-session
snapshot splits around it. -/
theorem c5_witness :
    shouldStopSession envE5 s5 = allowDecision ∧
    policyPass envE5 [] ([s5] ++ [s2w]) =
      (policyPass envE5 [] [s5]).app (policyPass envE5 [] [s2w]) :=
  c5_fail_open envE5 s5 "db down" [] [s5] [s2w] (by decide)

/-- C6. Effective concurrent-stream limit resolution: the effective limit is
the user's `concurrentStreamLimit` preference when set (neither null nor
undefined); otherwise the global `CONCURRENT_STREAM_LIMIT` setting through
`numOrZero`, which yields the stored number and 0 when the value is absent or
non-numeric; and a user whose effective limit is 0 is unlimited — the
concurrent-cap pass terminates none of that user's sessions. -/
theorem c6_effective_limit (env : Env) (userId : String) :
    (∀ (p : UserPreference) (n : Int), env.findPreference userId = .ok (some p) →
      p.concurrentStreamLimit = some n → getEffectiveLimit env userId = .ok n) ∧
    (∀ (pref : Option UserPreference) (v : JsVal), env.findPreference userId = .ok pref →
      pref.bind UserPreference.concurrentStreamLimit = none →
      env.getSetting ("CONCURRENT_STREAM_LIMIT") = .ok v →
      getEffectiveLimit env userId = .ok v.numOrZero) ∧
    (∀ sessions : List PlexSession, getEffectiveLimit env userId = .ok 0 →
      processUser env userId sessions = TickResult.nil) := by
  refine ⟨?_, ?_, ?_⟩
  · intro p n hp hn
    simp [getEffectiveLimit, hp, hn]
  · intro pref v hp hn hv
    simp [getEffectiveLimit, hp, hn, hv]
  · intro sessions h0
    simp [processUser, processUserPlan, h0]

/-- C6 witness: a preference row with limit 0 resolves to 0 and the
concurrent pass leaves that user's sessions alone. -/
theorem c6_witness :
    getEffectiveLimit envW6 "u6" = .ok 0 ∧ processUser envW6 "u6" [s2w] = TickResult.nil := by
  have h := c6_effective_limit envW6 "u6"
  exact ⟨h.1 { concurrentStreamLimit := some 0 } 0 rfl rfl,
    h.2.2 [s2w] (h.1 { concurrentStreamLimit := some 0 } 0 rfl rfl)⟩

theorem userIdOf_inv (s : PlexSession) (userId : String) (h : userIdOf s = some userId) :
    jsOrStr (s.user.bind PlexUserRef.id) (s.user.bind PlexUserRef.uuid) = some userId ∧
    optTruthy (jsOrStr (s.user.bind PlexUserRef.id) (s.user.bind PlexUserRef.uuid)) = true := by
  simp only [userIdOf] at h
  split at h
  · rename_i ht
    exact ⟨h, ht⟩
  · cases h

theorem deviceIdOf_inv (s : PlexSession) (deviceIdentifier : String)
    (h : deviceIdOf s = some deviceIdentifier) :
    s.player.bind PlexPlayerRef.machineIdentifier = some deviceIdentifier ∧
    optTruthy (s.player.bind PlexPlayerRef.machineIdentifier) = true := by
  simp only [deviceIdOf] at h
  split at h
  · rename_i ht
    exact ⟨h, ht⟩
  · cases h

/-- C7. Missing client IP blocks the session: a non-Plexamp session with a
resolved user id and device identifier and no temporary-access policy bypass
whose `Player.address` is falsy gets IP validation
`{ allowed: false, reason: 'Invalid or missing client IP address from Plex' }`
with no stop code — even when the user has no `UserPreference` row — so
`shouldStopSession` orders a stop with that reason and no stop code, and the
tick terminates the session with that reason; whereas any session with a
truthy user id, a truthy address and no preference row passes IP validation. -/
theorem c7_missing_ip_blocks (env : Env) (s : PlexSession)
    (userId deviceIdentifier sid : String) (dev : Option UserDevice)
    (hplex : isPlexampSession s = false)
    (hu : userIdOf s = some userId) (hd : deviceIdOf s = some deviceIdentifier)
    (haddr : optTruthy (s.player.bind PlexPlayerRef.address) = false)
    (hdev : env.findDevice userId deviceIdentifier = .ok dev)
    (hnb : ∀ d, dev = some d → ∃ b, env.isTempAccessValid d = .ok b ∧
      (b && d.temporaryAccessBypassPolicies) = false)
    (hsid : sidOf s = some sid)
    (hconc : handleConcurrentStreamLimits env [s] = TickResult.nil)
    (hterm : env.terminate sid ipMissingMsg = .ok ()) :
    validateIPAccess env s =
      { allowed := false, reason := some ipMissingMsg, stopCode := none } ∧
    shouldStopSession env s =
      { shouldStop := true, reason := some ipMissingMsg, stopCode := none } ∧
    stopUnapprovedSessions env { metadata := some [s] } =
      ⟨[(sid, ipMissingMsg)], [sid], []⟩ ∧
    (∀ s2 : PlexSession,
      optTruthy (jsOrStr (s2.user.bind PlexUserRef.id) (s2.user.bind PlexUserRef.uuid)) =
        true →
      optTruthy (s2.player.bind PlexPlayerRef.address) = true →
      env.findPreference
        ((jsOrStr (s2.user.bind PlexUserRef.id) (s2.user.bind PlexUserRef.uuid)).getD "") =
        .ok none →
      validateIPAccess env s2 = { allowed := true }) := by
  obtain ⟨-, hut⟩ := userIdOf_inv s userId hu
  have hip : validateIPAccess env s =
      { allowed := false, reason := some ipMissingMsg, stopCode := none } := by
    rw [validateIPAccess, validateIPAccessInner]
    simp only [hut, haddr]
    rfl
  have hstop : shouldStopSession env s =
      { shouldStop := true, reason := some ipMissingMsg, stopCode := none } := by
    rw [shouldStopSession, shouldStopSessionInner]
    simp only [hu, hd, hplex, hdev]
    cases dev with
    | none =>
      simp only [Bool.false_eq_true, if_false, ipTimeDeviceStage, hip]
      rfl
    | some d =>
      obtain ⟨b, hb1, hb2⟩ := hnb d rfl
      simp only [Bool.false_eq_true, if_false, hb1, hb2, ipTimeDeviceStage, hip]
      rfl
  refine ⟨hip, hstop, ?_, ?_⟩
  · have hres : resolveReason env (some ipMissingMsg) = .ok ipMissingMsg := by
      rw [resolveReason, if_pos (by decide : optTruthy (some ipMissingMsg) = true)]
      rfl
    have hpe : policyEval env s (some sid) =
        ⟨[(sid, ipMissingMsg)], [sid], []⟩ := by
      simp only [policyEval, hstop, hres, hterm, if_true]
    simp only [stopUnapprovedSessions, hconc, Option.getD_some]
    rw [TickResult.nil_app]
    simp only [policyPass, policyStep, hsid]
    rw [if_neg (by simp [TickResult.nil] : ¬ sid ∈ TickResult.nil.stopped)]
    rw [hpe, TickResult.app_nil]
  · intro s2 h2u h2a h2p
    rw [validateIPAccess, validateIPAccessInner]
    simp only [h2u, h2a, h2p]
    rfl

/-- C7 witness: the concrete addressless session of user u7 is blocked with
the missing-IP reason and terminated in its tick. -/
theorem c7_witness :
    validateIPAccess baseEnv s7 =
      { allowed := false, reason := some ipMissingMsg, stopCode := none } ∧
    shouldStopSession baseEnv s7 =
      { shouldStop := true, reason := some ipMissingMsg, stopCode := none } ∧
    stopUnapprovedSessions baseEnv { metadata := some [s7] } =
      ⟨[("s7id", ipMissingMsg)], ["s7id"], []⟩ ∧
    (∀ s2 : PlexSession,
      optTruthy (jsOrStr (s2.user.bind PlexUserRef.id) (s2.user.bind PlexUserRef.uuid)) =
        true →
      optTruthy (s2.player.bind PlexPlayerRef.address) = true →
      baseEnv.findPreference
        ((jsOrStr (s2.user.bind PlexUserRef.id) (s2.user.bind PlexUserRef.uuid)).getD "") =
        .ok none →
      validateIPAccess baseEnv s2 = { allowed := true }) :=
  c7_missing_ip_blocks baseEnv s7 "u7" "m7" "s7id" none (by decide) (by decide)
    (by decide) (by decide) (by decide) (fun d hd => by cases hd) (by decide)
    (by decide) (by decide)

/-- C8. Policy determinism: with the environment fixed — device registry,
user preferences, time rules, settings, session history, and the current time
are all fields of `Env` — two evaluations of the same snapshot (and of the
same session) yield the same result: the embedding is a pure function of
those inputs and nothing else. -/
theorem c8_policy_determinism (env : Env) (data : PlexSessionsResponse) (s : PlexSession)
    (r1 r2 : TickResult) (d1 d2 : StopDecision)
    (h1 : r1 = stopUnapprovedSessions env data) (h2 : r2 = stopUnapprovedSessions env data)
    (h3 : d1 = shouldStopSession env s) (h4 : d2 = shouldStopSession env s) :
    r1 = r2 ∧ d1 = d2 := by
  subst h1 h2 h3 h4
  exact ⟨rfl, rfl⟩

/-- C8 witness: two evaluations of the concrete two-session snapshot agree. -/
theorem c8_witness :
    stopUnapprovedSessions baseEnv data3 = stopUnapprovedSessions baseEnv data3 ∧
    shouldStopSession baseEnv s2w = shouldStopSession baseEnv s2w :=
  c8_policy_determinism baseEnv data3 s2w _ _ _ _ rfl rfl rfl rfl

/-- C9 counterexample. A first note submission by the owner of a rejected
(not approved) device with no prior submission is refused when the
`USER_PORTAL_ALLOW_REJECTED_REQUESTS` setting is false, instead of setting
`request_description` and `request_submitted_at` as the claim states. -/
theorem c9_counterexample :
    dev9a.userId = "u9" ∧ dev9a.status ≠ "approved" ∧ dev9a.requestSubmittedAt = none ∧
    findDeviceById st9X 1 = some dev9a ∧
    requestDeviceApproval st9X "u9" 1 (some ("please")) =
      .error ("Adding notes for rejected devices is not allowed") := by
  refine ⟨rfl, by decide, rfl, rfl, rfl⟩

/-- C9 (amended). Note one-shot: a device whose `requestSubmittedAt` is
non-null refuses any further portal note submission with a Forbidden error
(so the device table is only returned updated through the success branch);
and a first submission on a device owned by the caller that is not approved —
and, when the device is rejected, with the
`USER_PORTAL_ALLOW_REJECTED_REQUESTS` setting enabled (its default) — sets
`requestDescription` and `requestSubmittedAt` on that device row. -/
theorem c9_note_one_shot (st : PortalState) (plexUserId : String) (deviceId : Int)
    (description : Option String) (d : PortalDevice)
    (hfind : findDeviceById st deviceId = some d) :
    (d.requestSubmittedAt.isSome = true →
      ∃ e, requestDeviceApproval st plexUserId deviceId description = .error e) ∧
    (d.userId = plexUserId → d.status ≠ "approved" → d.requestSubmittedAt = none →
      (d.status = "rejected" →
        portalGetBool st ("USER_PORTAL_ALLOW_REJECTED_REQUESTS") true = true) →
      requestDeviceApproval st plexUserId deviceId description =
        .ok (st.devices.map (fun dd =>
          if dd.id = deviceId then
            { dd with requestDescription := some (strOrDefault description ""),
                      requestSubmittedAt := some st.now }
          else dd))) := by
  constructor
  · intro hsub
    simp only [requestDeviceApproval, hfind]
    by_cases h1 : d.userId ≠ plexUserId
    · rw [if_pos h1]; exact ⟨_, rfl⟩
    · rw [if_neg h1]
      by_cases h2 : d.status = "approved"
      · rw [if_pos h2]; exact ⟨_, rfl⟩
      · rw [if_neg h2, if_pos hsub]
        exact ⟨_, rfl⟩
  · intro hown hst hsub hrej
    simp only [requestDeviceApproval, hfind]
    rw [if_neg (by simp [hown]), if_neg hst, if_neg (by simp [hsub]),
      if_neg (by rintro ⟨hr, hb⟩; rw [hrej hr] at hb; cases hb)]

/-- C9 witness: the already-submitted device 2 is refused; the fresh pending
device 3 receives the note and the submission timestamp. -/
theorem c9_witness :
    (∃ e, requestDeviceApproval st9W "u9" 2 (some ("hi")) = .error e) ∧
    requestDeviceApproval st9W "u9" 3 (some ("hi")) =
      .ok (st9W.devices.map (fun dd =>
        if dd.id = 3 then
          { dd with requestDescription := some (strOrDefault (some ("hi")) ""),
                    requestSubmittedAt := some st9W.now }
        else dd)) :=
  ⟨(c9_note_one_shot st9W "u9" 2 (some ("hi")) dev9b rfl).1 rfl,
    (c9_note_one_shot st9W "u9" 3 (some ("hi")) dev9c rfl).2 rfl (by decide) rfl
      (fun hr => absurd hr (by decide))⟩

/-- C10. Unknown sessions sort newest in the concurrent-cap pass: a countable
session whose session key is falsy, or whose key has no `SessionHistory` row,
gets start time `Date.now()` in `getSessionStartTimes`, so its entry is in
the timed list; and in the newest-first order every entry timed `now` is
placed strictly before every entry with a recorded earlier start, hence
whenever such an earlier-started entry falls inside the terminated prefix,
the `now`-timed entry does too (it is preferred for termination). -/
theorem c10_unknown_sessions_newest (env : Env) (countable : List PlexSession)
    (swt : List TimedSession) (s : PlexSession)
    (hswt : getSessionStartTimes env countable = .ok swt)
    (hs : s ∈ countable)
    (hmiss : optTruthy s.sessionKey = false ∨
      env.findHistory (s.sessionKey.getD "") = .ok none) :
    computeStartTime env s = .ok env.now ∧
    (⟨s, env.now⟩ : TimedSession) ∈ swt ∧
    (∀ i j : Fin (sortNewestFirst swt).length,
      ((sortNewestFirst swt).get i).startTime = env.now →
      ((sortNewestFirst swt).get j).startTime < env.now → i < j) ∧
    (∀ (k : ℕ) (i j : Fin (sortNewestFirst swt).length),
      ((sortNewestFirst swt).get i).startTime = env.now →
      ((sortNewestFirst swt).get j).startTime < env.now →
      (j : ℕ) < k → (i : ℕ) < k) := by
  have hct : computeStartTime env s = .ok env.now := by
    rcases hmiss with hk | hh
    · rw [computeStartTime, if_neg (by simp [hk])]
    · by_cases hk2 : optTruthy s.sessionKey = true
      · rw [computeStartTime, if_pos hk2]
        simp only [hh]
        rfl
      · rw [computeStartTime, if_neg hk2]
  have h3 : ∀ i j : Fin (sortNewestFirst swt).length,
      ((sortNewestFirst swt).get i).startTime = env.now →
      ((sortNewestFirst swt).get j).startTime < env.now → i < j := by
    intro i j hi hj
    by_contra hij
    push_neg at hij
    rcases eq_or_lt_of_le hij with heq | hlt
    · rw [← heq] at hi
      omega
    · have hrel := (sortNewestFirst_sorted swt).rel_get_of_lt hlt
      have : ((sortNewestFirst swt).get i).startTime ≤
          ((sortNewestFirst swt).get j).startTime := hrel
      omega
  refine ⟨hct, getSessionStartTimes_mem env countable swt s env.now hswt hs hct, h3, ?_⟩
  intro k i j hi hj hjk
  have hij := h3 i j hi hj
  have : (i : ℕ) < (j : ℕ) := hij
  omega

/-- C10 witness: the keyless session gets start time 1000 (the scenario's
now) and sorts ahead of the session recorded at 50; the index separation is
instantiated at the concrete sorted list. -/
theorem c10_witness :
    computeStartTime envW10 u10a = .ok (1000 : Int) ∧
    (⟨u10a, (1000 : Int)⟩ : TimedSession) ∈
      ([⟨u10a, 1000⟩, ⟨u10b, 50⟩] : List TimedSession) := by
  have h := c10_unknown_sessions_newest envW10 [u10a, u10b]
    [⟨u10a, 1000⟩, ⟨u10b, 50⟩] u10a (by decide) (by decide) (Or.inl (by decide))
  exact ⟨h.1, h.2.1⟩

end Guardian
